import Mathlib

/-!
Verification of the GuitarRecognitionJam core against its design spec.

The TypeScript sources are shallowly embedded:
* `src/unnamed/part_002` (constants module): `NOTE_NAMES`, `getNoteFromFrequency`,
  `CHORD_TYPES`, `identifyChord`;
* `src/types.ts` (App module): `autoCorrelate` and the `detectPitch` update closure
  (note-stream stabilizer and the 20-4000 Hz frequency gate);
* `src/components/SpeedTrainer.tsx`: the rhythm-trainer state machine
  (`stopAllAudio`, `startLearning`, the note handler for the learning / locked /
  training phases, and the metronome tick handler).

Machine floats are modelled as exact rationals (`ℚ`); the transcendental
`Math.log` used by the note mapper is modelled over `ℝ` with `Real.log`.
JavaScript `%` on integers (remainder with the dividend's sign) is `Int.tmod`;
`Math.floor` of a quotient is `Int.fdiv`; `Math.round x` is `⌊x + 1/2⌋`;
an out-of-range (negative) array index, which yields `undefined` in JS, is
modelled by an `Option` result.
-/

/-! ### Chromatic note names (source: `NOTE_NAMES` in src/unnamed/part_002) -/

def NOTE_NAMES : List String :=
  ["C", "C#", "D", "D#", "E", "F"] ++ ["F#", "G", "G#", "A", "A#", "B"]

/-- JS array read `l[i]` for an integer index: `undefined` (here `none`) when the
index is negative or past the end. -/
def jsArrayGet (l : List String) (i : ℤ) : Option String :=
  if 0 ≤ i then l.get? i.toNat else none

/-- Prefix of a note label before the first octave digit; models
`n.split(/\d/)[0]` in `identifyChord`. -/
def stripOctave (s : String) : String :=
  String.mk (s.data.takeWhile (fun c => !c.isDigit))

/-- Index of a note label in `NOTE_NAMES` after stripping octave digits, `-1`
when absent; models `NOTE_NAMES.indexOf(n.split(/\d/)[0])`. -/
def noteIndexOf (s : String) : ℤ :=
  match NOTE_NAMES.findIdx? (fun m => m == stripOctave s) with
  | some i => (i : ℤ)
  | none => -1

/-! ### Chord templates (source: `CHORD_TYPES` in src/unnamed/part_002) -/

structure ChordDefinition where
  name : String
  intervals : List ℤ
  suffix : String
deriving DecidableEq, Repr

def CHORD_TYPES : List ChordDefinition :=
  [ ⟨"Major", [0, 4, 7], ""⟩,
    ⟨"Minor", [0, 3, 7], "m"⟩,
    ⟨"Major 7th", [0, 4, 7, 11], "Maj7"⟩,
    ⟨"Minor 7th", [0, 3, 7, 10], "m7"⟩,
    ⟨"Dominant 7th", [0, 4, 7, 10], "7"⟩,
    ⟨"Suspended 4th", [0, 5, 7], "sus4"⟩,
    ⟨"Suspended 2nd", [0, 2, 7], "sus2"⟩,
    ⟨"Diminished", [0, 3, 6], "dim"⟩,
    ⟨"Augmented", [0, 4, 8], "aug"⟩,
    ⟨"Power Chord", [0, 7], "5"⟩ ]

/-- Result record of `identifyChord`. The `root` and the `notes` entries are JS
array reads that can be `undefined`, hence `Option`; in the interpolated `name`
string JS coerces `undefined` to the text "undefined". -/
structure ChordMatch where
  name : String
  root : Option String
  type : String
  notes : List (Option String)
deriving DecidableEq, Repr

/-- Relative intervals of all played classes with respect to one candidate root,
sorted ascending; models
`noteIndices.map(idx => (idx - root + 12) % 12).sort((a, b) => a - b)`. -/
def relIntervalsFor (root : ℤ) (noteIndices : List ℤ) : List ℤ :=
  List.insertionSort (fun a b => a ≤ b)
    (noteIndices.map (fun idx => Int.tmod (idx - root + 12) 12))

/-- The `ChordMatch` built for a successful template match at `root`. -/
def mkChordMatch (root : ℤ) (t : ChordDefinition) : ChordMatch :=
  { name := (jsArrayGet NOTE_NAMES root).getD "undefined" ++ t.suffix
    root := jsArrayGet NOTE_NAMES root
    type := t.name
    notes := t.intervals.map (fun i => jsArrayGet NOTE_NAMES (Int.tmod (root + i) 12)) }

/-- Inner loop of `identifyChord`: first template (in `CHORD_TYPES` order) whose
intervals are all contained in the played relative intervals. -/
def matchAtRoot (root : ℤ) (rel : List ℤ) : Option ChordMatch :=
  CHORD_TYPES.findSome? (fun t =>
    if t.intervals.all (fun i => rel.contains i) then some (mkChordMatch root t)
    else none)

/-- Outer loop of `identifyChord`: candidate roots in ascending index order,
first match wins. -/
def chordSearch (noteIndices : List ℤ) : Option ChordMatch :=
  noteIndices.findSome? (fun root => matchAtRoot root (relIntervalsFor root noteIndices))

/-- Sorted deduplicated note indices of the input; models
`Array.from(new Set(notes.map(...))).sort((a, b) => a - b)`.  JS keeps first
occurrences while `List.dedup` keeps last ones, but the subsequent ascending
sort makes both produce the strictly increasing enumeration of the same set. -/
def sortedNoteIndices (notes : List String) : List ℤ :=
  List.insertionSort (fun a b => a ≤ b) (notes.map noteIndexOf).dedup

/-- Source: `identifyChord` in src/unnamed/part_002. -/
def identifyChord (notes : List String) : Option ChordMatch :=
  if notes.length < 2 then none
  else chordSearch (sortedNoteIndices notes)

/-- C7: pitch-class set {C, E, G} yields root C, type Major; adding A keeps the
same first match because the Major template is tested (and succeeds by the
subset test) before any extended template, for the lowest root first. -/
theorem c7_chord_matcher_reference_inputs :
    identifyChord ["C", "E", "G"] =
      some ⟨"C", some "C", "Major", [some "C", some "E", some "G"]⟩ ∧
    identifyChord ["C", "E", "G", "A"] =
      some ⟨"C", some "C", "Major", [some "C", some "E", some "G"]⟩ := by
  constructor <;> decide

/-! ### C10: `identifyChord` depends only on the pitch-class set -/

lemma relIntervalsFor_self_singleton (i : ℤ) : relIntervalsFor i [i] = [0] := by
  have e : i - i + 12 = (12 : ℤ) := by ring
  simp only [relIntervalsFor, List.map_cons, List.map_nil, e]
  decide

lemma matchAtRoot_rel_zero (root : ℤ) : matchAtRoot root [0] = none := rfl

lemma chordSearch_singleton (i : ℤ) : chordSearch [i] = none := by
  simp [chordSearch, List.findSome?_cons, relIntervalsFor_self_singleton,
    matchAtRoot_rel_zero]

lemma chordSearch_short (L : List ℤ) (h : L.length ≤ 1) : chordSearch L = none := by
  match L with
  | [] => rfl
  | [x] => exact chordSearch_singleton x
  | x :: y :: t => simp at h

lemma sortedNoteIndices_length_le (l : List String) :
    (sortedNoteIndices l).length ≤ l.length := by
  have h1 : (sortedNoteIndices l).length = (l.map noteIndexOf).dedup.length :=
    (List.perm_insertionSort _ _).length_eq
  have h2 : (l.map noteIndexOf).dedup.length ≤ (l.map noteIndexOf).length :=
    (List.dedup_sublist _).length_le
  rw [h1, List.length_map] at *
  omega

lemma sortedNoteIndices_eq_of_toFinset_eq (l1 l2 : List String)
    (h : (l1.map noteIndexOf).toFinset = (l2.map noteIndexOf).toFinset) :
    sortedNoteIndices l1 = sortedNoteIndices l2 := by
  have hmem : ∀ a : ℤ, a ∈ (l1.map noteIndexOf).dedup ↔ a ∈ (l2.map noteIndexOf).dedup := by
    intro a
    rw [List.mem_dedup, List.mem_dedup, ← List.mem_toFinset, h, List.mem_toFinset]
  have hperm : List.Perm (l1.map noteIndexOf).dedup (l2.map noteIndexOf).dedup :=
    (List.perm_ext_iff_of_nodup (List.nodup_dedup _) (List.nodup_dedup _)).mpr hmem
  have hchain : List.Perm (sortedNoteIndices l1) (sortedNoteIndices l2) :=
    ((List.perm_insertionSort _ _).trans hperm).trans (List.perm_insertionSort _ _).symm
  exact List.eq_of_perm_of_sorted hchain
    (List.sorted_insertionSort _ _) (List.sorted_insertionSort _ _)

/-- C10: the result of `identifyChord` depends only on the set of pitch-class
indices of the input (octave digits stripped, duplicates removed), so any
permutation, duplication, or octave-suffix variation of the same pitch classes
yields an identical result. -/
theorem c10_identifyChord_depends_only_on_pitch_class_set (l1 l2 : List String)
    (h : (l1.map noteIndexOf).toFinset = (l2.map noteIndexOf).toFinset) :
    identifyChord l1 = identifyChord l2 := by
  have hs : sortedNoteIndices l1 = sortedNoteIndices l2 :=
    sortedNoteIndices_eq_of_toFinset_eq l1 l2 h
  by_cases h2 : 2 ≤ (sortedNoteIndices l1).length
  · have e1 : ¬ l1.length < 2 := by
      have := sortedNoteIndices_length_le l1; omega
    have e2 : ¬ l2.length < 2 := by
      have := sortedNoteIndices_length_le l2; rw [hs] at h2; omega
    simp [identifyChord, e1, e2, hs]
  · have hb1 : (sortedNoteIndices l1).length ≤ 1 := by omega
    have hb2 : (sortedNoteIndices l2).length ≤ 1 := by rw [← hs]; omega
    unfold identifyChord
    by_cases g1 : l1.length < 2 <;> by_cases g2 : l2.length < 2 <;>
      simp [g1, g2, chordSearch_short _ hb1, chordSearch_short _ hb2]

/-- C10 witness: concrete application — reordering, duplicating and octave
suffixes leave the chord identification unchanged. -/
theorem c10_witness :
    identifyChord ["C", "E", "G"] = identifyChord ["E4", "G", "C", "C3"] :=
  c10_identifyChord_depends_only_on_pitch_class_set _ _ (by decide)

/-! ### Note mapper (source: `getNoteFromFrequency` in src/unnamed/part_002)

The source computes `Math.round(12 * Math.log(f / 440) / Math.log(2)) + 69`,
indexes `NOTE_NAMES` with the JS remainder of that by 12 (`Int.tmod`, which is
negative for negative dividends, making the array read `undefined`), and takes
`Math.floor(roundedNote / 12) - 1` as octave.  For `f ≤ 0` the logarithm is
`NaN`/`-Infinity` and no meaningful note is produced; that invalid result is
modelled as `none`. -/

noncomputable def getNoteFromFrequency (f : ℝ) : Option (Option String × ℤ) :=
  if 0 < f then
    some (jsArrayGet NOTE_NAMES
            (Int.tmod (⌊12 * (Real.log (f / 440) / Real.log 2) + 1/2⌋ + 69) 12),
          Int.fdiv (⌊12 * (Real.log (f / 440) / Real.log 2) + 1/2⌋ + 69) 12 - 1)
  else none

/-- Modelled from the spec wording of the claim (the comparison target for the
refinement): semitone offset `round(12 * log2(f / 440))`, absolute index
`offset + 69`, `name = NOTE_NAMES[index mod 12]` with the mathematical
(nonnegative) remainder, `octave = floor(index / 12) - 1`. -/
noncomputable def specNoteFromFrequency (f : ℝ) : Option (Option String × ℤ) :=
  if 0 < f then
    some (NOTE_NAMES.get? ((⌊12 * Real.logb 2 (f / 440) + 1/2⌋ + 69) % 12).toNat,
          Int.fdiv (⌊12 * Real.logb 2 (f / 440) + 1/2⌋ + 69) 12 - 1)
  else none

/-- C9 counterexample: at the positive frequency f = 55/8 Hz (= 440 / 2^6 Hz)
the semitone index is -3, the JS remainder `-3 % 12 = -3` makes the
`NOTE_NAMES` read `undefined`, so the code returns no note name, while the
claim's formula demands the name "A" — refuting "for every positive frequency
it returns a name and octave per the formula". -/
theorem c9_counterexample_low_frequency :
    getNoteFromFrequency (55 / 8) = some (none, -2) ∧
    specNoteFromFrequency (55 / 8) = some (some "A", -2) := by
  have hlog2 : Real.log 2 ≠ 0 := ne_of_gt (Real.log_pos (by norm_num))
  have h164 : ((55 : ℝ) / 8) / 440 = 1 / 64 := by norm_num
  have hlog : Real.log ((1 : ℝ) / 64) = (-6) * Real.log 2 := by
    rw [show ((1 : ℝ) / 64) = (2 : ℝ) ^ (-6 : ℤ) by norm_num, Real.log_zpow]
    push_cast
    ring
  have hval : 12 * (Real.log (((55 : ℝ) / 8) / 440) / Real.log 2) = -72 := by
    rw [h164, hlog]
    field_simp
    ring
  have hvalb : 12 * Real.logb 2 (((55 : ℝ) / 8) / 440) = -72 := by
    rw [Real.logb, hval]
  have hfloor : ⌊(-72 : ℝ) + 1/2⌋ = -72 := by
    rw [Int.floor_eq_iff]
    norm_num
  constructor
  · rw [getNoteFromFrequency, if_pos (by norm_num : (0:ℝ) < 55/8), hval, hfloor]
    decide
  · rw [specNoteFromFrequency, if_pos (by norm_num : (0:ℝ) < 55/8), hvalb, hfloor]
    decide

/-- C9 amended: the mapper yields no note for f ≤ 0; for positive f whose
rounded absolute semitone index is nonnegative (every f above about 8 Hz, in
particular the whole 20-4000 Hz range the callers gate to) it agrees exactly
with the spec's equal-temperament formula.  (For smaller positive f the JS
remainder is negative and the name lookup fails — the counterexample.) -/
theorem c9_note_mapper_amended (f : ℝ) :
    (f ≤ 0 → getNoteFromFrequency f = none) ∧
    (0 < f → 0 ≤ ⌊12 * Real.logb 2 (f / 440) + 1/2⌋ + 69 →
      getNoteFromFrequency f = specNoteFromFrequency f) := by
  constructor
  · intro hf
    rw [getNoteFromFrequency, if_neg (not_lt.mpr hf)]
  · intro hf hidx
    rw [getNoteFromFrequency, specNoteFromFrequency, if_pos hf, if_pos hf]
    rw [show Real.logb 2 (f / 440) = Real.log (f / 440) / Real.log 2 from rfl] at hidx ⊢
    rw [Int.tmod_eq_emod hidx (by norm_num)]
    rw [jsArrayGet, if_pos (Int.emod_nonneg _ (by norm_num))]

/-- C9 witness: the amended theorem applied at 440 Hz gives A, octave 4. -/
theorem c9_witness : getNoteFromFrequency 440 = some (some "A", 4) := by
  have hlogb : Real.logb 2 ((440 : ℝ) / 440) = 0 := by
    norm_num [Real.logb_one]
  have h := (c9_note_mapper_amended 440).2 (by norm_num)
    (by rw [hlogb]; norm_num)
  rw [h, specNoteFromFrequency, if_pos (by norm_num : (0:ℝ) < 440), hlogb]
  norm_num
  decide

/-! ### Note stream stabilizer (source: the `setCurrentNote` updater inside
`detectPitch` in src/types.ts)

The updater keeps the previously emitted `NoteData` object (no re-render, so
no new NoteEvent) exactly when the candidate carries the same name+octave
string and its frequency is within 1 Hz of the previously emitted frequency;
otherwise it returns a fresh object, which is a new NoteEvent. -/

structure NoteData where
  note : String
  frequency : ℚ
  confidence : ℚ
  timestamp : ℚ
deriving DecidableEq, Repr

def stabilizeUpdate (prev : Option NoteData) (cand : NoteData) : NoteData :=
  match prev with
  | some p => if p.note = cand.note ∧ |p.frequency - cand.frequency| < 1 then p else cand
  | none => cand

/-- Whether the updater produced a fresh object (a new NoteEvent) rather than
returning the previous one. -/
def emitsEvent (prev : Option NoteData) (cand : NoteData) : Bool :=
  match prev with
  | some p => if p.note = cand.note ∧ |p.frequency - cand.frequency| < 1 then false else true
  | none => true

/-- Feed a stream of per-frame candidates through the stabilizer, counting the
emitted NoteEvents. -/
def runStabilizer : Option NoteData → List NoteData → Option NoteData × ℕ
  | prev, [] => (prev, 0)
  | prev, c :: cs =>
    let r := runStabilizer (some (stabilizeUpdate prev c)) cs
    (r.1, (if emitsEvent prev c then 1 else 0) + r.2)

/-- A stream of length n alternating between two candidates, starting with a. -/
def altList (a b : NoteData) : ℕ → List NoteData
  | 0 => []
  | n + 1 => a :: altList b a n

lemma stabilizeUpdate_self (c : NoteData) : stabilizeUpdate (some c) c = c := by
  simp [stabilizeUpdate]

lemma emitsEvent_self (c : NoteData) : emitsEvent (some c) c = false := by
  simp [emitsEvent]

lemma runStabilizer_replicate_same (c : NoteData) :
    ∀ n, (runStabilizer (some c) (List.replicate n c)).2 = 0 := by
  intro n
  induction n with
  | zero => rfl
  | succ k ih =>
    simp [List.replicate_succ, runStabilizer, emitsEvent_self, stabilizeUpdate_self, ih]

lemma runStabilizer_alt_aux :
    ∀ (n : ℕ) (a b x : NoteData), a.note ≠ b.note → x.note = b.note →
      (runStabilizer (some x) (altList a b n)).2 = n := by
  intro n
  induction n with
  | zero => intro a b x _ _; rfl
  | succ k ih =>
    intro a b x hab hxb
    have hxa : ¬ (x.note = a.note ∧ |x.frequency - a.frequency| < 1) := by
      intro hcl
      exact hab (hxb ▸ hcl.1.symm)
    simp only [altList, runStabilizer, emitsEvent, stabilizeUpdate, if_neg hxa]
    rw [ih b a a hab.symm rfl]
    simp [Nat.add_comm]

/-- C6: a step emits a new NoteEvent iff the candidate's note string differs
from the previously emitted one or its frequency drifted by at least 1 Hz;
consequently a constant stream emits exactly one event, and a stream
alternating between two distinct notes emits one event per frame. -/
theorem c6_stabilizer_debounce :
    (∀ (p c : NoteData), emitsEvent (some p) c = true ↔
      (c.note ≠ p.note ∨ 1 ≤ |c.frequency - p.frequency|)) ∧
    (∀ (c : NoteData) (n : ℕ), 1 ≤ n →
      (runStabilizer none (List.replicate n c)).2 = 1) ∧
    (∀ (a b : NoteData) (n : ℕ), a.note ≠ b.note →
      (runStabilizer none (altList a b (n + 1))).2 = n + 1) := by
  refine ⟨?_, ?_, ?_⟩
  · intro p c
    show (if p.note = c.note ∧ |p.frequency - c.frequency| < 1 then false else true) = true ↔ _
    rw [abs_sub_comm c.frequency p.frequency]
    split_ifs with h
    · simp only [Bool.false_eq_true, false_iff, not_or, not_le, ne_eq, not_not]
      exact ⟨h.1.symm, h.2⟩
    · simp only [true_iff]
      rcases not_and_or.mp h with h1 | h2
      · exact Or.inl (Ne.symm h1)
      · exact Or.inr (not_lt.mp h2)
  · intro c n hn
    obtain ⟨k, rfl⟩ : ∃ k, n = k + 1 := ⟨n - 1, by omega⟩
    simp [List.replicate_succ, runStabilizer, emitsEvent, stabilizeUpdate,
      runStabilizer_replicate_same]
  · intro a b n hab
    simp only [altList, runStabilizer, emitsEvent, stabilizeUpdate]
    rw [runStabilizer_alt_aux n b a a hab.symm rfl]
    simp [Nat.add_comm]

def witNoteA : NoteData := ⟨"A4", 440, 9/10, 0⟩

def witNoteB : NoteData := ⟨"B4", 494, 9/10, 0⟩

/-- C6 witness: concrete instances of all three parts of the debounce theorem. -/
theorem c6_witness :
    emitsEvent (some witNoteA) witNoteB = true ∧
    (runStabilizer none (List.replicate 3 witNoteA)).2 = 1 ∧
    (runStabilizer none (altList witNoteA witNoteB 4)).2 = 4 :=
  ⟨(c6_stabilizer_debounce.1 witNoteA witNoteB).mpr (Or.inl (by decide)),
   c6_stabilizer_debounce.2.1 witNoteA 3 (by decide),
   c6_stabilizer_debounce.2.2 witNoteA witNoteB 3 (by decide)⟩

/-! ### Autocorrelator (source: `autoCorrelate` in src/types.ts)

The frame is a list of samples; the correlation buffer is zero beyond the lag
range `0..maxOffset-1`, matching the zero-filled preallocated Float32Array.
`rms < 0.005` is compared as `meanSquare < 1/40000` (both sides of the source
comparison are nonnegative, so squaring is exact).  The `while` walk to the
first dip is written with explicit fuel; `maxOffset + 1` steps always
suffice because the walk stops at `d = maxOffset` at the latest. -/

def bufGet (buf : List ℚ) (i : ℕ) : ℚ := buf.getD i 0

def meanSquare (buf : List ℚ) : ℚ :=
  ((List.range buf.length).map (fun i => bufGet buf i * bufGet buf i)).sum / (buf.length : ℚ)

def corrAt (buf : List ℚ) (offset : ℕ) : ℚ :=
  if offset < buf.length / 2 then
    ((List.range (buf.length / 2)).map (fun i => bufGet buf i * bufGet buf (i + offset))).sum
  else 0

def findDipAux (corr : ℕ → ℚ) (m : ℕ) : ℕ → ℕ → ℕ
  | d, 0 => d
  | d, fuel + 1 =>
    if corr d > corr (d + 1) ∧ d < m then findDipAux corr m (d + 1) fuel else d

def findDip (corr : ℕ → ℚ) (m : ℕ) : ℕ := findDipAux corr m 0 (m + 1)

/-- The highest-peak scan `for (i = d; i < maxOffset; i++) if (corr[i] > maxval) ...`,
with initial `maxval = -1` and `maxpos = -1` (modelled as `none`). -/
def scanMax (corr : ℕ → ℚ) : List ℕ → ℚ → Option ℕ → ℚ × Option ℕ
  | [], v, p => (v, p)
  | i :: rest, v, p =>
    if corr i > v then scanMax corr rest (corr i) (some i) else scanMax corr rest v p

/-- Parabolic sub-sample refinement of the integer peak lag. -/
def refinedLag (corr : ℕ → ℚ) (m : ℕ) (p : ℕ) : ℚ :=
  if 0 < p ∧ p < m - 1 then
    if (corr (p - 1) + corr (p + 1) - 2 * corr p) / 2 ≠ 0 then
      (p : ℚ) -
        ((corr (p + 1) - corr (p - 1)) / 2) /
          (2 * ((corr (p - 1) + corr (p + 1) - 2 * corr p) / 2))
    else (p : ℚ)
  else (p : ℚ)

/-- The lag that `autoCorrelate` derives its frequency from; `none` on each of
the source's "return -1" (no pitch) paths. -/
def selectedLag (buf : List ℚ) : Option ℚ :=
  if meanSquare buf < 1 / 40000 then none
  else
    Option.bind
      (scanMax (corrAt buf)
        (List.range' (findDip (corrAt buf) (buf.length / 2))
          (buf.length / 2 - findDip (corrAt buf) (buf.length / 2)))
        (-1) none).2
      (fun p => if p = 0 then none else some (refinedLag (corrAt buf) (buf.length / 2) p))

/-- Source: `autoCorrelate` returns the sentinel -1 or `sampleRate / finalPos`. -/
def autoCorrelate (buf : List ℚ) (sampleRate : ℚ) : ℚ :=
  match selectedLag buf with
  | none => -1
  | some lag => sampleRate / lag

/-- Caller gate (source: `detectPitch` in src/types.ts): a frequency is used
only when `freq !== -1 && freq > 20 && freq < 4000`. -/
def freqGatePasses (freq : ℚ) : Bool :=
  decide (freq ≠ -1) && decide (20 < freq) && decide (freq < 4000)

lemma findDipAux_descent (corr : ℕ → ℚ) (m : ℕ) :
    ∀ (fuel d j : ℕ), d ≤ j → j < findDipAux corr m d fuel → corr j > corr (j + 1) := by
  intro fuel
  induction fuel with
  | zero =>
    intro d j hd hj
    rw [findDipAux] at hj
    omega
  | succ k ih =>
    intro d j hd hj
    rw [findDipAux] at hj
    by_cases hc : corr d > corr (d + 1) ∧ d < m
    · rw [if_pos hc] at hj
      rcases Nat.eq_or_lt_of_le hd with rfl | hlt
      · exact hc.1
      · exact ih (d + 1) j hlt hj
    · rw [if_neg hc] at hj
      omega

lemma findDipAux_stop (corr : ℕ → ℚ) (m : ℕ) :
    ∀ (fuel d : ℕ), m < fuel + d →
      ¬(corr (findDipAux corr m d fuel) > corr (findDipAux corr m d fuel + 1) ∧
        findDipAux corr m d fuel < m) := by
  intro fuel
  induction fuel with
  | zero =>
    intro d hm
    rw [findDipAux]
    exact fun h => absurd h.2 (by omega)
  | succ k ih =>
    intro d hm
    rw [findDipAux]
    by_cases hc : corr d > corr (d + 1) ∧ d < m
    · rw [if_pos hc]
      exact ih (d + 1) (by omega)
    · rw [if_neg hc]
      exact hc

lemma scanMax_range_spec (corr : ℕ → ℚ) :
    ∀ (n a : ℕ) (v0 : ℚ) (p0 : Option ℕ),
      v0 ≤ (scanMax corr (List.range' a n) v0 p0).1 ∧
      (∀ i, a ≤ i → i < a + n → corr i ≤ (scanMax corr (List.range' a n) v0 p0).1) ∧
      (((scanMax corr (List.range' a n) v0 p0).2 = p0 ∧
        (scanMax corr (List.range' a n) v0 p0).1 = v0) ∨
       (∃ p, (scanMax corr (List.range' a n) v0 p0).2 = some p ∧ a ≤ p ∧ p < a + n ∧
         (scanMax corr (List.range' a n) v0 p0).1 = corr p ∧ v0 < corr p ∧
         ∀ j, a ≤ j → j < p → corr j < corr p)) := by
  intro n
  induction n with
  | zero =>
    intro a v0 p0
    refine ⟨le_refl _, ?_, Or.inl ⟨rfl, rfl⟩⟩
    intro i h1 h2
    omega
  | succ k ih =>
    intro a v0 p0
    rw [List.range'_succ]
    by_cases h : corr a > v0
    · rw [show scanMax corr (a :: List.range' (a + 1) k) v0 p0 =
          scanMax corr (List.range' (a + 1) k) (corr a) (some a) from by
        rw [scanMax, if_pos h]]
      obtain ⟨ih1, ih2, ih3⟩ := ih (a + 1) (corr a) (some a)
      refine ⟨le_trans (le_of_lt h) ih1, ?_, ?_⟩
      · intro i hi1 hi2
        rcases Nat.eq_or_lt_of_le hi1 with rfl | hlt
        · exact ih1
        · exact ih2 i hlt (by omega)
      · rcases ih3 with ⟨hp, hv⟩ | ⟨p, hp, hap, hpn, hv, hvp, hstrict⟩
        · exact Or.inr ⟨a, hp, le_refl a, by omega, hv, h, fun j h1 h2 => absurd h2 (by omega)⟩
        · refine Or.inr ⟨p, hp, by omega, by omega, hv, lt_trans h hvp, ?_⟩
          intro j h1 h2
          rcases Nat.eq_or_lt_of_le h1 with rfl | hlt
          · exact hvp
          · exact hstrict j hlt h2
    · rw [show scanMax corr (a :: List.range' (a + 1) k) v0 p0 =
          scanMax corr (List.range' (a + 1) k) v0 p0 from by
        rw [scanMax, if_neg h]]
      obtain ⟨ih1, ih2, ih3⟩ := ih (a + 1) v0 p0
      have ha : corr a ≤ v0 := not_lt.mp h
      refine ⟨ih1, ?_, ?_⟩
      · intro i hi1 hi2
        rcases Nat.eq_or_lt_of_le hi1 with rfl | hlt
        · exact le_trans ha ih1
        · exact ih2 i hlt (by omega)
      · rcases ih3 with ⟨hp, hv⟩ | ⟨p, hp, hap, hpn, hv, hvp, hstrict⟩
        · exact Or.inl ⟨hp, hv⟩
        · refine Or.inr ⟨p, hp, by omega, by omega, hv, hvp, ?_⟩
          intro j h1 h2
          rcases Nat.eq_or_lt_of_le h1 with rfl | hlt
          · exact lt_of_le_of_lt ha hvp
          · exact hstrict j hlt h2

lemma refinedLag_pos (corr : ℕ → ℚ) (m d p : ℕ)
    (hp1 : 1 ≤ p) (hdp : d ≤ p) (hpm : p < m)
    (hmax : ∀ i, d ≤ i → i < m → corr i ≤ corr p)
    (hstrict : ∀ j, d ≤ j → j < p → corr j < corr p)
    (hdesc : ∀ j, j < d → corr j > corr (j + 1))
    (hstop : d < m → ¬ corr d > corr (d + 1)) :
    0 < refinedLag corr m p := by
  have hpq : (1 : ℚ) ≤ (p : ℚ) := by exact_mod_cast hp1
  rw [refinedLag]
  by_cases hint : 0 < p ∧ p < m - 1
  · rw [if_pos hint]
    by_cases ha : (corr (p - 1) + corr (p + 1) - 2 * corr p) / 2 ≠ 0
    · rw [if_pos ha]
      have hx2 : corr (p + 1) ≤ corr p := hmax (p + 1) (by omega) (by omega)
      have hkey : 2 * ((corr (p - 1) + corr (p + 1) - 2 * corr p) / 2) =
          corr (p - 1) + corr (p + 1) - 2 * corr p := by ring
      rw [hkey]
      rcases Nat.eq_or_lt_of_le hdp with hdp' | hdp'
      · -- peak at the dip index itself: flat right neighbour, strictly larger
        -- left neighbour, so the parabolic shift is exactly -1/2
        have hx12 : corr p ≤ corr (p + 1) := by
          have h0 := hstop (by omega)
          rw [hdp'] at h0
          exact not_lt.mp h0
        have hx21 : corr (p + 1) = corr p := le_antisymm hx2 hx12
        have hx0 : corr p < corr (p - 1) := by
          have h1 := hdesc (p - 1) (by omega)
          rwa [show p - 1 + 1 = p from by omega] at h1
        have hAB : corr (p - 1) - corr p ≠ 0 := sub_ne_zero.mpr (ne_of_gt hx0)
        have hden : corr (p - 1) + corr (p + 1) - 2 * corr p = corr (p - 1) - corr p := by
          rw [hx21]; ring
        have hshift : (corr (p + 1) - corr (p - 1)) / 2 /
            (corr (p - 1) + corr (p + 1) - 2 * corr p) = -(1 / 2) := by
          rw [hden, div_eq_iff hAB, hx21]
          ring
        rw [hshift]
        linarith
      · -- peak strictly after the dip: both neighbours are at most the peak,
        -- the left one strictly, so the parabolic shift is below 1
        have hx0 : corr (p - 1) < corr p := by
          have h1 := hstrict (p - 1) (by omega) (by omega)
          exact h1
        have hneg : corr (p - 1) + corr (p + 1) - 2 * corr p < 0 := by linarith
        have hshift : (corr (p + 1) - corr (p - 1)) / 2 /
            (corr (p - 1) + corr (p + 1) - 2 * corr p) < 1 := by
          rw [div_lt_iff_of_neg hneg]
          linarith
        linarith
    · rw [if_neg ha]
      linarith
  · rw [if_neg hint]
    linarith

/-- C8: whenever `autoCorrelate` selects a lag at all (every non-sentinel
return), that lag — including after parabolic refinement — is strictly
positive and the returned value is `sampleRate / lag`; on every other path the
sentinel -1 ("no pitch") is returned, so no frequency is ever derived from a
zero or negative lag; and the caller's gate only passes frequencies strictly
between 20 and 4000 Hz. -/
theorem c8_no_pitch_from_invalid_lag (buf : List ℚ) (sampleRate : ℚ) :
    (selectedLag buf = none → autoCorrelate buf sampleRate = -1) ∧
    (∀ lag, selectedLag buf = some lag →
      0 < lag ∧ autoCorrelate buf sampleRate = sampleRate / lag) ∧
    (∀ f : ℚ, freqGatePasses f = true → 20 < f ∧ f < 4000) := by
  refine ⟨?_, ?_, ?_⟩
  · intro h
    rw [autoCorrelate, h]
  · intro lag h
    refine ⟨?_, by rw [autoCorrelate, h]⟩
    rw [selectedLag] at h
    by_cases hsil : meanSquare buf < 1 / 40000
    · rw [if_pos hsil] at h
      exact absurd h (by simp)
    · rw [if_neg hsil] at h
      rcases hscan : (scanMax (corrAt buf)
          (List.range' (findDip (corrAt buf) (buf.length / 2))
            (buf.length / 2 - findDip (corrAt buf) (buf.length / 2)))
          (-1) none).2 with _ | p
      · rw [hscan, Option.none_bind] at h
        exact absurd h (by simp)
      · rw [hscan, Option.some_bind] at h
        by_cases hp0 : p = 0
        · rw [if_pos hp0] at h
          exact absurd h (by simp)
        · rw [if_neg hp0] at h
          obtain rfl : refinedLag (corrAt buf) (buf.length / 2) p = lag := Option.some.inj h
          obtain ⟨hs1, hs2, hs3⟩ := scanMax_range_spec (corrAt buf)
            (buf.length / 2 - findDip (corrAt buf) (buf.length / 2))
            (findDip (corrAt buf) (buf.length / 2)) (-1) none
          rcases hs3 with ⟨hpnone, _⟩ | ⟨q, hq, hdq, hqn, hv, hvneg, hstrict⟩
          · rw [hscan] at hpnone
            exact absurd hpnone (by simp)
          · rw [hscan] at hq
            obtain rfl : p = q := Option.some.inj hq
            have hq0 : 1 ≤ p := Nat.one_le_iff_ne_zero.mpr hp0
            apply refinedLag_pos (corrAt buf) (buf.length / 2)
              (findDip (corrAt buf) (buf.length / 2)) p hq0 hdq (by omega)
            · intro i h1 h2
              have := hs2 i h1 (by omega)
              rwa [hv] at this
            · intro j h1 h2
              exact hstrict j h1 h2
            · intro j hj
              exact findDipAux_descent (corrAt buf) (buf.length / 2) (buf.length / 2 + 1)
                0 j (Nat.zero_le j) hj
            · intro hdm2 hgt
              exact findDipAux_stop (corrAt buf) (buf.length / 2) (buf.length / 2 + 1) 0
                (by omega) ⟨hgt, hdm2⟩
  · intro f hf
    rw [freqGatePasses] at hf
    simp only [Bool.and_eq_true, decide_eq_true_eq] at hf
    exact ⟨hf.1.2, hf.2⟩

/-- C8 witness: a concrete 8-sample frame whose selected (refined) lag is 5/6,
with the theorem giving positivity and the returned frequency, and a concrete
gated frequency. -/
theorem c8_witness :
    (0 < (5 / 6 : ℚ) ∧
      autoCorrelate [0, 0, 0, 1, 2, 0, 0, 0] 8000 = 8000 / (5 / 6)) ∧
    (20 < (440 : ℚ) ∧ (440 : ℚ) < 4000) :=
  ⟨(c8_no_pitch_from_invalid_lag [0, 0, 0, 1, 2, 0, 0, 0] 8000).2.1 (5 / 6) (by
      norm_num [selectedLag, meanSquare, corrAt, bufGet, findDip, findDipAux, scanMax,
        refinedLag, List.range_succ, List.range']),
   (c8_no_pitch_from_invalid_lag [0, 0, 0, 1, 2, 0, 0, 0] 8000).2.2 440 (by
      norm_num [freqGatePasses])⟩

/-! ### Rhythm trainer state machine (source: src/components/SpeedTrainer.tsx)

React state and refs of the component are collected into one record.  The
listening `useEffect` is one pure note handler (invoked per new `activeNote`);
the `Tone.Loop` callback is the tick handler.  `clockBpm` models
`Tone.Transport.bpm.value` (the beat clock's tempo) and `now` models
`Date.now()`; the float constants 0.4, 0.15, 0.05 are the exact rationals
2/5, 3/20, 1/20. -/

inductive Phase
  | idle
  | learning
  | locked
  | training
deriving DecidableEq, Repr

inductive HitType
  | perfect
  | good
  | fair
  | miss
  | none
deriving DecidableEq, Repr

structure Feedback where
  msg : String
  color : String
  offset : Option ℚ
  hitType : HitType
  timestamp : ℚ
deriving DecidableEq, Repr

inductive ComplexityMode
  | simple
  | balanced
  | complex
deriving DecidableEq, Repr

def configMin : ComplexityMode → ℕ
  | .simple => 2
  | .balanced => 3
  | .complex => 4

def configMax : ComplexityMode → ℕ
  | .simple => 4
  | .balanced => 6
  | .complex => 10

structure TrainerState where
  trainingState : Phase
  complexity : ComplexityMode
  noteHistory : List String
  learnedPattern : List String
  patternMatches : ℕ
  startBpm : ℚ
  bpm : ℚ
  targetBpm : ℚ
  increment : ℚ
  streak : ℕ
  bestStreak : ℕ
  currentBeat : ℕ
  lastBeatTime : ℚ
  feedback : Option Feedback
  isActive : Bool
  isMetronomeAudioEnabled : Bool
  currentPatternProgress : ℕ
  hasPlayedOnThisBeat : Bool
deriving DecidableEq, Repr

/-- React initial state of the SpeedTrainer component (complexity selectable
while idle). -/
def initialState (c : ComplexityMode) : TrainerState :=
  { trainingState := .idle
    complexity := c
    noteHistory := []
    learnedPattern := []
    patternMatches := 0
    startBpm := 80
    bpm := 80
    targetBpm := 140
    increment := 5
    streak := 0
    bestStreak := 0
    currentBeat := 0
    lastBeatTime := 0
    feedback := Option.none
    isActive := false
    isMetronomeAudioEnabled := false
    currentPatternProgress := 0
    hasPlayedOnThisBeat := false }

/-- Source: `stopAllAudio` — resets beat, activity flags, phase, pattern, match
counter, history and feedback.  It does not touch streak, bestStreak, bpm, or
the pattern-progress cursor. -/
def stopAllAudio (s : TrainerState) : TrainerState :=
  { s with
    currentBeat := 0
    isActive := false
    isMetronomeAudioEnabled := false
    trainingState := .idle
    learnedPattern := []
    patternMatches := 0
    noteHistory := []
    feedback := Option.none }

/-- Source: `startLearning` — enters the learning phase, clearing pattern,
match counter and streak and restoring the configured start BPM (the cursor
ref is not reset here either). -/
def startLearning (s : TrainerState) : TrainerState :=
  { s with
    trainingState := .learning
    isActive := true
    learnedPattern := []
    patternMatches := 0
    streak := 0
    bpm := s.startBpm }

/-- JS `slice(-n)`: the last `n` elements. -/
def takeLast (n : ℕ) (l : List String) : List String := l.drop (l.length - n)

/-- The self-repetition scan of the learning phase: the first pattern length in
`[minL, maxL]` (ascending) for which the most recent `len` notes equal the
`len` notes immediately preceding them. -/
def findRepeatLen (minL maxL : ℕ) (next : List String) : Option ℕ :=
  (List.range' minL (maxL + 1 - minL)).find? (fun len =>
    decide (len * 2 ≤ next.length) &&
      decide (takeLast len next = takeLast len (next.take (next.length - len))))

/-- Locked-phase cycle completion: applied after the cursor advance; wraps to 0
and bumps the confirmation counter when the cursor has reached the pattern
length, entering training at 5 confirmations. -/
def lockedAdvance (s : TrainerState) (now : ℚ) : TrainerState :=
  if s.learnedPattern.length ≤ s.currentPatternProgress then
    if 5 ≤ s.patternMatches + 1 then
      { s with
        currentPatternProgress := 0
        patternMatches := s.patternMatches + 1
        trainingState := .training
        isMetronomeAudioEnabled := true
        feedback := some ⟨"READY... GO!", "text-emerald-400", Option.none, .perfect, now⟩ }
    else
      { s with
        currentPatternProgress := 0
        patternMatches := s.patternMatches + 1 }
  else s

/-- Precision bands of the training phase: message, colour and hit type from
the signed offset and the beat period. -/
def hitClass (diff period : ℚ) : String × String × HitType :=
  if |diff| > period * (3 / 20) then
    (if diff > 0 then "Late" else "Early", "text-amber-500", .fair)
  else if |diff| > period * (1 / 20) then
    (if diff > 0 then "Slightly Late" else "Slightly Early", "text-blue-400", .good)
  else ("Perfect!", "text-emerald-400", .perfect)

/-- Training-phase accepted hit, applied to the state with the hit flag set and
the cursor already incremented (mirroring `currentPatternProgressRef.current++`
before the `=== 0` check).  The streak / level-up branch requires the
incremented cursor to equal 0. -/
def trainingHit (s : TrainerState) (diff normalizedOffset period now : ℚ) : TrainerState :=
  if s.currentPatternProgress = 0 then
    if (s.streak + 1) % 3 = 0 then
      { s with
        streak := s.streak + 1
        bestStreak := if s.bestStreak < s.streak + 1 then s.streak + 1 else s.bestStreak
        bpm := min (s.bpm + s.increment) s.targetBpm
        feedback := some ⟨"LEVEL UP!", "text-emerald-400", some normalizedOffset,
          .perfect, now⟩ }
    else
      { s with
        streak := s.streak + 1
        bestStreak := if s.bestStreak < s.streak + 1 then s.streak + 1 else s.bestStreak
        feedback := some ⟨(hitClass diff period).1, (hitClass diff period).2.1,
          some normalizedOffset, (hitClass diff period).2.2, now⟩ }
  else
    { s with
      feedback := some ⟨(hitClass diff period).1, (hitClass diff period).2.1,
        some normalizedOffset, (hitClass diff period).2.2, now⟩ }

/-- Learning-phase branch of the listening effect. -/
def handleLearning (s : TrainerState) (activeNote : String) (now : ℚ) : TrainerState :=
  match findRepeatLen (configMin s.complexity) (configMax s.complexity)
      (takeLast 20 (s.noteHistory ++ [activeNote])) with
  | some len =>
    { s with
      learnedPattern := takeLast len (takeLast 20 (s.noteHistory ++ [activeNote]))
      patternMatches := 1
      trainingState := .locked
      noteHistory := []
      feedback := some ⟨toString len ++ "-Note Lick Found! Confirm 5 times.",
        "text-blue-400", Option.none, .good, now⟩ }
  | Option.none =>
    { s with noteHistory := takeLast 20 (s.noteHistory ++ [activeNote]) }

/-- Locked-phase branch of the listening effect. -/
def handleLocked (s : TrainerState) (activeNote : String) (now : ℚ) : TrainerState :=
  if s.learnedPattern.get? s.currentPatternProgress = some activeNote then
    lockedAdvance { s with currentPatternProgress := s.currentPatternProgress + 1 } now
  else if s.currentPatternProgress + 1 < s.learnedPattern.length ∧
      s.learnedPattern.get? (s.currentPatternProgress + 1) = some activeNote then
    lockedAdvance { s with currentPatternProgress := s.currentPatternProgress + 2 } now
  else s

/-- Training-phase branch of the listening effect. -/
def handleTraining (s : TrainerState) (activeNote : String) (now clockBpm : ℚ) :
    TrainerState :=
  if s.learnedPattern.get? s.currentPatternProgress = some activeNote ∧
      |(if now - s.lastBeatTime > 60000 / clockBpm / 2 then
          now - s.lastBeatTime - 60000 / clockBpm
        else now - s.lastBeatTime)| < 60000 / clockBpm * (2 / 5) ∧
      s.hasPlayedOnThisBeat = false then
    trainingHit
      { s with
        hasPlayedOnThisBeat := true
        currentPatternProgress := s.currentPatternProgress + 1 }
      (if now - s.lastBeatTime > 60000 / clockBpm / 2 then
          now - s.lastBeatTime - 60000 / clockBpm
        else now - s.lastBeatTime)
      ((if now - s.lastBeatTime > 60000 / clockBpm / 2 then
          now - s.lastBeatTime - 60000 / clockBpm
        else now - s.lastBeatTime) / (60000 / clockBpm / 2))
      (60000 / clockBpm) now
  else s

/-- Source: the main listening effect of SpeedTrainer, one invocation per new
note, dispatched on the phase. -/
def handleNote (s : TrainerState) (activeNote : String) (now clockBpm : ℚ) :
    TrainerState :=
  match s.trainingState with
  | .idle => s
  | .learning => handleLearning s activeNote now
  | .locked => handleLocked s activeNote now
  | .training => handleTraining s activeNote now clockBpm

/-- Source: the `Tone.Loop` callback — advances the beat counter, records the
tick time, raises "Missed Beat!" when no hit landed during the previous beat
while a streak was alive, then clears the per-beat hit flag. -/
def handleTick (s : TrainerState) (now : ℚ) : TrainerState :=
  if s.trainingState = .training ∧ s.hasPlayedOnThisBeat = false ∧ 0 < s.streak then
    { s with
      currentBeat := (s.currentBeat + 1) % 4
      lastBeatTime := now
      streak := 0
      feedback := some ⟨"Missed Beat!", "text-red-500", some 0, .miss, now⟩
      hasPlayedOnThisBeat := false }
  else
    { s with
      currentBeat := (s.currentBeat + 1) % 4
      lastBeatTime := now
      hasPlayedOnThisBeat := false }

/-- Feed a note sequence (learning / locked phases; timing arguments inert). -/
def runNotes (s : TrainerState) (notes : List String) : TrainerState :=
  notes.foldl (fun st n => handleNote st n 0 120) s

/-- Tick-then-note driver for the training phase: each entry is a beat tick at
the given time immediately followed by a note event at that same instant. -/
def runBeats (s : TrainerState) (clockBpm : ℚ) : List (String × ℚ) → TrainerState
  | [] => s
  | (n, t) :: rest => runBeats (handleNote (handleTick s t) n t clockBpm) clockBpm rest

/-! ### C4: learn → lock → train scenario -/

/-- Fresh session in complexity "simple" right after the start action. -/
def c4Start : TrainerState := startLearning (initialState .simple)

/-- C4: from a fresh learning session in "simple" mode (lengths 2-4), the
12-note feed [E,F,G]×4 locks exactly when the second repetition appears (after
5 notes the trainer is still learning, the 6th note locks pattern [E,F,G] with
confirmation counter 1 and cleared history); after all 12 notes the counter is
3, and continuing with [E,F,G]×2 completes the 5th confirmed cycle, reaching
the counter value 5 that transitions to training. -/
theorem c4_learn_lock_train_scenario :
    (runNotes c4Start ["E", "F", "G", "E", "F"]).trainingState = Phase.learning ∧
    ((runNotes c4Start ["E", "F", "G", "E", "F", "G"]).trainingState = Phase.locked ∧
      (runNotes c4Start ["E", "F", "G", "E", "F", "G"]).learnedPattern = ["E", "F", "G"] ∧
      (runNotes c4Start ["E", "F", "G", "E", "F", "G"]).patternMatches = 1 ∧
      (runNotes c4Start ["E", "F", "G", "E", "F", "G"]).noteHistory = []) ∧
    ((runNotes c4Start
        ["E", "F", "G", "E", "F", "G", "E", "F", "G", "E", "F", "G"]).trainingState =
        Phase.locked ∧
      (runNotes c4Start
        ["E", "F", "G", "E", "F", "G", "E", "F", "G", "E", "F", "G"]).patternMatches = 3) ∧
    ((runNotes c4Start
        ["E", "F", "G", "E", "F", "G", "E", "F", "G", "E", "F", "G",
         "E", "F", "G", "E", "F", "G"]).trainingState = Phase.training ∧
      (runNotes c4Start
        ["E", "F", "G", "E", "F", "G", "E", "F", "G", "E", "F", "G",
         "E", "F", "G", "E", "F", "G"]).patternMatches = 5) := by
  decide

/-! ### C3: what reset actually clears -/

/-- A mid-session training state: streak 2, BPM raised to 90, cursor at 1. -/
def preResetState : TrainerState :=
  { initialState .simple with
    trainingState := .training
    learnedPattern := ["E", "F", "G"]
    patternMatches := 5
    streak := 2
    bpm := 90
    lastBeatTime := 10000
    isActive := true
    isMetronomeAudioEnabled := true
    currentPatternProgress := 1 }

/-- C3 counterexample: resetting from a training state returns to idle but
leaves streak at 2, BPM at 90 (not the configured start BPM 80) and the
pattern-progress cursor at 1 — refuting the claim that reset clears the
streak, the cursor and the BPM. -/
theorem c3_counterexample_reset_keeps_streak_bpm_cursor :
    (stopAllAudio preResetState).trainingState = Phase.idle ∧
    (stopAllAudio preResetState).streak = 2 ∧
    (stopAllAudio preResetState).bpm = 90 ∧
    (stopAllAudio preResetState).startBpm = 80 ∧
    (stopAllAudio preResetState).currentPatternProgress = 1 := by
  decide

/-- C3 amended: `stopAllAudio` (the reset action) returns the trainer to idle
and clears the LearnedPattern, the confirmation counter, the note history, the
feedback and the beat counter, but leaves streak, bestStreak, BPM and the
pattern-progress cursor unchanged; streak and BPM are reset (to 0 and the
configured start BPM) only by the next `startLearning`, which also leaves the
cursor unchanged. -/
theorem c3_reset_postcondition_amended (s : TrainerState) :
    ((stopAllAudio s).trainingState = Phase.idle ∧
      (stopAllAudio s).learnedPattern = [] ∧
      (stopAllAudio s).patternMatches = 0 ∧
      (stopAllAudio s).noteHistory = [] ∧
      (stopAllAudio s).feedback = Option.none ∧
      (stopAllAudio s).currentBeat = 0 ∧
      (stopAllAudio s).isActive = false ∧
      (stopAllAudio s).streak = s.streak ∧
      (stopAllAudio s).bestStreak = s.bestStreak ∧
      (stopAllAudio s).bpm = s.bpm ∧
      (stopAllAudio s).currentPatternProgress = s.currentPatternProgress) ∧
    ((startLearning s).trainingState = Phase.learning ∧
      (startLearning s).streak = 0 ∧
      (startLearning s).bpm = s.startBpm ∧
      (startLearning s).learnedPattern = [] ∧
      (startLearning s).patternMatches = 0 ∧
      (startLearning s).currentPatternProgress = s.currentPatternProgress) :=
  ⟨⟨rfl, rfl, rfl, rfl, rfl, rfl, rfl, rfl, rfl, rfl, rfl⟩,
   ⟨rfl, rfl, rfl, rfl, rfl, rfl⟩⟩

/-! ### C5: timing classification at 120 BPM -/

/-- A confirmed training state: pattern [E, F, G], cursor at 0, last beat at
t = 10000, beat clock at 120 BPM (500 ms period). -/
def trainingStart : TrainerState :=
  { initialState .simple with
    trainingState := .training
    learnedPattern := ["E", "F", "G"]
    patternMatches := 5
    lastBeatTime := 10000
    isActive := true
    isMetronomeAudioEnabled := true }

/-- C5: with a 500 ms beat period, a correct note exactly on the beat is a
"perfect" hit (advancing the cursor and setting the hit flag); 100 ms late
(20% of the period) lands in the outer "fair"/Late band; 250 ms late (50% of
the period, the fold-over boundary) fails the 40% tolerance and is ignored
entirely — no hit, no miss, no cursor advance, the state is unchanged. -/
theorem c5_timing_classification :
    ((handleNote trainingStart "E" 10000 120).feedback =
        some ⟨"Perfect!", "text-emerald-400", some 0, HitType.perfect, 10000⟩ ∧
      (handleNote trainingStart "E" 10000 120).currentPatternProgress = 1 ∧
      (handleNote trainingStart "E" 10000 120).hasPlayedOnThisBeat = true) ∧
    ((handleNote trainingStart "E" 10100 120).feedback =
        some ⟨"Late", "text-amber-500", some (2 / 5), HitType.fair, 10100⟩ ∧
      (handleNote trainingStart "E" 10100 120).currentPatternProgress = 1) ∧
    handleNote trainingStart "E" 10250 120 = trainingStart := by
  refine ⟨⟨?_, ?_, ?_⟩, ⟨?_, ?_⟩, ?_⟩ <;>
    norm_num [handleNote, handleTraining, trainingStart, initialState, trainingHit, hitClass]

/-! ### C2: the cursor bound is broken in the training phase -/

/-- C2 failing run: three perfectly timed correct hits (tick then note at
10500, 11000, 11500 with a 500 ms period) drive the cursor to 3 = pattern
length — the cursor is never wrapped to 0 in the training phase (the source
increments the ref without a modulo), so the invariant 0 ≤ cursor < length is
violated after the third hit, and the full-cycle wrap the claim describes
never happens. -/
theorem c2_cursor_bound_violated_in_training :
    (runBeats trainingStart 120 [("E", 10500), ("F", 11000), ("G", 11500)]).learnedPattern =
      ["E", "F", "G"] ∧
    (runBeats trainingStart 120
      [("E", 10500), ("F", 11000), ("G", 11500)]).currentPatternProgress = 3 ∧
    ¬((runBeats trainingStart 120
        [("E", 10500), ("F", 11000), ("G", 11500)]).currentPatternProgress <
      (runBeats trainingStart 120
        [("E", 10500), ("F", 11000), ("G", 11500)]).learnedPattern.length) := by
  refine ⟨?_, ?_, ?_⟩ <;>
    norm_num [runBeats, handleTick, handleNote, handleTraining, trainingHit, hitClass,
      trainingStart, initialState]

/-! ### C1: the tempo ramp never fires -/

lemma lockedAdvance_keeps_bpm_streak (s : TrainerState) (now : ℚ) :
    (lockedAdvance s now).bpm = s.bpm ∧ (lockedAdvance s now).streak = s.streak := by
  rw [lockedAdvance]
  split_ifs <;> exact ⟨rfl, rfl⟩

lemma trainingHit_keeps_bpm_streak (s : TrainerState)
    (h : s.currentPatternProgress ≠ 0) (diff off period now : ℚ) :
    (trainingHit s diff off period now).bpm = s.bpm ∧
      (trainingHit s diff off period now).streak = s.streak := by
  rw [trainingHit, if_neg h]
  exact ⟨rfl, rfl⟩

/-- Once the cursor has run off the end of the pattern, the expected note is
`undefined` and no further note event changes the training state at all. -/
lemma handleNote_stuck_past_pattern (s : TrainerState) (a : String) (now clockBpm : ℚ)
    (hph : s.trainingState = .training)
    (hc : s.learnedPattern.length ≤ s.currentPatternProgress) :
    handleNote s a now clockBpm = s := by
  simp only [handleNote, hph, handleTraining]
  rw [if_neg]
  intro hcond
  rw [List.get?_eq_none.mpr hc] at hcond
  exact Option.noConfusion hcond.1

lemma handleTick_no_streak (s : TrainerState) (now : ℚ) (h : s.streak = 0) :
    handleTick s now =
      { s with
        currentBeat := (s.currentBeat + 1) % 4
        lastBeatTime := now
        hasPlayedOnThisBeat := false } := by
  rw [handleTick, if_neg]
  intro hcond
  exact lt_irrefl 0 (h ▸ hcond.2.2)

/-- A stuck training state (cursor at or past the pattern length, streak 0)
stays stuck under the tick-then-note driver: BPM, streak and cursor are all
frozen. -/
lemma runBeats_stuck (clockBpm : ℚ) :
    ∀ (evs : List (String × ℚ)) (s : TrainerState),
      s.trainingState = .training →
      s.learnedPattern.length ≤ s.currentPatternProgress →
      s.streak = 0 →
      (runBeats s clockBpm evs).bpm = s.bpm ∧
      (runBeats s clockBpm evs).streak = 0 ∧
      (runBeats s clockBpm evs).currentPatternProgress = s.currentPatternProgress := by
  intro evs
  induction evs with
  | nil =>
    intro s hph hc hs
    exact ⟨rfl, hs, rfl⟩
  | cons ev rest ih =>
    rcases ev with ⟨n, t⟩
    intro s hph hc hs
    rw [runBeats, handleTick_no_streak s t hs]
    rw [handleNote_stuck_past_pattern
      { s with currentBeat := (s.currentBeat + 1) % 4, lastBeatTime := t, hasPlayedOnThisBeat := false }
      n t clockBpm hph hc]
    exact ih _ hph hc hs

/-- The trainer state after the first three (tick, perfect hit) rounds at
80 BPM from `trainingStart`: all three pattern notes accepted, cursor stuck at
3, streak still 0. -/
def stuckAfterThree : TrainerState :=
  { trainingState := .training
    complexity := .simple
    noteHistory := []
    learnedPattern := ["E", "F", "G"]
    patternMatches := 5
    startBpm := 80
    bpm := 80
    targetBpm := 140
    increment := 5
    streak := 0
    bestStreak := 0
    currentBeat := 3
    lastBeatTime := 11500
    feedback := some ⟨"Perfect!", "text-emerald-400", some 0, .perfect, 11500⟩
    isActive := true
    isMetronomeAudioEnabled := true
    currentPatternProgress := 3
    hasPlayedOnThisBeat := true }

lemma runBeats_first_three (rest : List (String × ℚ)) :
    runBeats trainingStart 80 (("E", 10000) :: ("F", 10750) :: ("G", 11500) :: rest) =
      runBeats stuckAfterThree 80 rest := by
  rw [runBeats, runBeats, runBeats]
  norm_num [handleTick, handleNote, handleTraining, trainingHit, hitClass,
    trainingStart, stuckAfterThree, initialState]

/-- C1 evidence.  First part: a note event never changes the BPM or the streak
in any state — the level-up branch tests `cursor == 0` right after the
increment, which is unsatisfiable, so it is dead code.  Second part: the
claim's own scenario (start 80, increment 5, target 140; nine correct,
perfectly timed hits, one per 750 ms beat) leaves the BPM at 80 and the streak
at 0 instead of the claimed 95 — only the first three hits are even accepted,
after which the cursor is stuck at the pattern length. -/
theorem c1_tempo_ramp_never_fires :
    (∀ (s : TrainerState) (a : String) (now clockBpm : ℚ),
      (handleNote s a now clockBpm).bpm = s.bpm ∧
      (handleNote s a now clockBpm).streak = s.streak) ∧
    ((runBeats trainingStart 80
        [("E", 10000), ("F", 10750), ("G", 11500), ("E", 12250), ("F", 13000),
         ("G", 13750), ("E", 14500), ("F", 15250), ("G", 16000)]).bpm = 80 ∧
      (runBeats trainingStart 80
        [("E", 10000), ("F", 10750), ("G", 11500), ("E", 12250), ("F", 13000),
         ("G", 13750), ("E", 14500), ("F", 15250), ("G", 16000)]).streak = 0 ∧
      (runBeats trainingStart 80
        [("E", 10000), ("F", 10750), ("G", 11500), ("E", 12250), ("F", 13000),
         ("G", 13750), ("E", 14500), ("F", 15250), ("G", 16000)]).currentPatternProgress
        = 3) := by
  constructor
  · intro s a now clockBpm
    cases hph : s.trainingState <;> simp only [handleNote, hph]
    · constructor <;> trivial
    · rw [handleLearning]
      rcases hf : findRepeatLen (configMin s.complexity) (configMax s.complexity)
          (takeLast 20 (s.noteHistory ++ [a])) with _ | len
      · constructor <;> trivial
      · constructor <;> trivial
    · rw [handleLocked]
      split_ifs
      · exact lockedAdvance_keeps_bpm_streak _ now
      · exact lockedAdvance_keeps_bpm_streak _ now
      · constructor <;> trivial
    · rw [handleTraining]
      generalize (if now - s.lastBeatTime > 60000 / clockBpm / 2 then
          now - s.lastBeatTime - 60000 / clockBpm
        else now - s.lastBeatTime) = dv
      split
      · exact trainingHit_keeps_bpm_streak _ (Nat.succ_ne_zero _) _ _ _ _
      · constructor <;> trivial
  · rw [show ([("E", 10000), ("F", 10750), ("G", 11500), ("E", 12250), ("F", 13000),
        ("G", 13750), ("E", 14500), ("F", 15250), ("G", 16000)] : List (String × ℚ)) =
        ("E", 10000) :: ("F", 10750) :: ("G", 11500) ::
          [("E", 12250), ("F", 13000), ("G", 13750), ("E", 14500), ("F", 15250),
           ("G", 16000)] from rfl]
    rw [runBeats_first_three]
    exact runBeats_stuck 80 _ stuckAfterThree rfl (by norm_num [stuckAfterThree]) rfl
